import Mathlib

/-!
Shallow embedding of the core pipeline of the `ecg_receiver_standalone`
repository, and proofs about it.

Conventions of the embedding:
* Python floats (numpy `float32` values) are modelled as exact values of an
  abstract type `α` where only storage and order matter (the `float32` cast in
  `CircularECGBuffer.append` is then the identity), and as exact rationals `ℚ`
  where arithmetic matters (the heart-rate estimator).  Real floating-point
  rounding is outside the embedding.
* Python lists / numpy arrays are Lean `List`s; numpy slice semantics
  (including the `arr[-0:] = arr` corner case) are modelled explicitly.
* `time.time()` is modelled as a natural-number clock carried in the state.
-/

set_option maxRecDepth 10000

namespace EcgReceiver

/-! ## CircularECGBuffer (src/ecg_receiver/core/circular_buffer.py)

```python
class CircularECGBuffer:
    def __init__(self, max_size: int = 5000):
        self.max_size = max_size
        self.buffer = np.zeros(max_size, dtype=np.float32)
        self.head = 0
        self.count = 0
        self.full = False
```
-/

structure CircularECGBuffer (α : Type) where
  max_size : Nat
  buffer : List α
  head : Nat
  count : Nat
  full : Bool
deriving Repr, DecidableEq

/-- Constructor `CircularECGBuffer.__init__` with a non-negative `max_size`; `z` stands for
the `0.0` that `np.zeros` fills the storage with. -/
def CircularECGBuffer.init (z : α) (max_size : Nat) : CircularECGBuffer α :=
  { max_size := max_size
    buffer := List.replicate max_size z
    head := 0
    count := 0
    full := false }

/-- Constructor `CircularECGBuffer.__init__` over a Python `int` argument: `np.zeros`
raises `ValueError` on a negative size (modelled as `none`) and otherwise the
constructor succeeds with no further validation of `max_size`. -/
def CircularECGBuffer.mk? (z : α) (max_size : Int) : Option (CircularECGBuffer α) :=
  if max_size < 0 then none else some (CircularECGBuffer.init z max_size.toNat)

/-- The body of the `for value in data:` loop of `CircularECGBuffer.append`:

```python
self.buffer[self.head] = value
self.head = (self.head + 1) % self.max_size
if not self.full:
    self.count += 1
    if self.count == self.max_size:
        self.full = True
```
-/
def CircularECGBuffer.appendOne (b : CircularECGBuffer α) (value : α) :
    CircularECGBuffer α :=
  let buffer := b.buffer.set b.head value
  let head := (b.head + 1) % b.max_size
  if b.full then
    { b with buffer := buffer, head := head }
  else
    let count := b.count + 1
    { b with buffer := buffer, head := head, count := count,
             full := decide (count = b.max_size) }

/-- Method `CircularECGBuffer.append(data)`: the `float32` cast is the identity in
this model, so the method is a left fold of `appendOne` over `data`. -/
def CircularECGBuffer.append (b : CircularECGBuffer α) (data : List α) :
    CircularECGBuffer α :=
  data.foldl CircularECGBuffer.appendOne b

/-- Python slice `arr[-s:]` for a numpy array `arr` and a non-negative `s`:
for `s = 0` this is `arr[0:]`, the whole array, not the empty one. -/
def pyTail (l : List α) (s : Nat) : List α :=
  if s = 0 then l else l.drop (l.length - s)

/-- Method `CircularECGBuffer.get_recent_data(samples)` with an explicit `samples`
argument (the `samples is None` default is `recentAll` below):

```python
samples = min(samples, self.count)
if not self.full:
    return self.buffer[:self.head][-samples:]
else:
    if samples <= self.head:
        return self.buffer[self.head-samples:self.head]
    else:
        tail_samples = samples - self.head
        return np.concatenate([
            self.buffer[-tail_samples:],
            self.buffer[:self.head]
        ])
```
-/
def CircularECGBuffer.get_recent_data (b : CircularECGBuffer α) (samples : Nat) :
    List α :=
  let samples := min samples b.count
  if !b.full then
    pyTail (b.buffer.take b.head) samples
  else if samples ≤ b.head then
    (b.buffer.take b.head).drop (b.head - samples)
  else
    let tail_samples := samples - b.head
    b.buffer.drop (b.buffer.length - tail_samples) ++ b.buffer.take b.head

/-- Call `get_recent_data(None)`: `samples` defaults to `self.count`. -/
def CircularECGBuffer.recentAll (b : CircularECGBuffer α) : List α :=
  b.get_recent_data b.count

/-- Method `CircularECGBuffer.clear`:

```python
self.head = 0
self.count = 0
self.full = False
self.buffer.fill(0.0)
```
-/
def CircularECGBuffer.clear (z : α) (b : CircularECGBuffer α) : CircularECGBuffer α :=
  { b with head := 0, count := 0, full := false,
           buffer := List.replicate b.buffer.length z }

/-- The structural invariant of the ring buffer: the head index is in range,
the fill count never exceeds the capacity, the stored array keeps its
allocated length, and `full` holds exactly when the count has reached the
capacity. -/
def CircularECGBuffer.Inv (b : CircularECGBuffer α) : Prop :=
  b.head < b.max_size ∧ b.count ≤ b.max_size ∧
    b.buffer.length = b.max_size ∧ (b.full = true ↔ b.count = b.max_size)

instance (b : CircularECGBuffer α) [DecidableEq α] : Decidable b.Inv := by
  unfold CircularECGBuffer.Inv; infer_instance

/-- The logical contents of a ring storage `l` whose oldest element sits at
index `h`: the segment from `h` to the end followed by the segment before
`h`, i.e. the stored data in arrival order. -/
def ringView (l : List α) (h : Nat) : List α := l.drop h ++ l.take h

/-- Abstraction relation: the buffer `b` is the state reached by appending the
value sequence `L` to a freshly constructed buffer of capacity `C` (with fill
value `z`).  While the buffer is not yet full its storage is the appended
prefix padded with `z`; once it is full, the ring view at the head is the last
`C` appended values. -/
def RingRep (z : α) (C : Nat) (L : List α) (b : CircularECGBuffer α) : Prop :=
  b.max_size = C ∧ b.buffer.length = C ∧
  b.count = min L.length C ∧ b.full = decide (C ≤ L.length) ∧
  b.head = L.length % C ∧
  (if L.length < C then b.buffer = L ++ List.replicate (C - L.length) z
   else ringView b.buffer b.head = L.drop (L.length - C))

/-! ## Rolling diagnosis window
(src/ecg_receiver/gui_tkinter/main_window_modern.py, `process_ecg_data`)

```python
self.raw_ecg_values.append(ecg_value)
if len(self.raw_ecg_values) > self.diagnosis_buffer_size:
    self.raw_ecg_values.pop(0)
```

The same oldest-evicting behaviour is what `deque(maxlen=...)` gives the
Kivy GUI's `ecg_buffer`.
-/

/-- One accepted sample entering the capped window of capacity `D`. -/
def windowAppend (D : Nat) (l : List α) (v : α) : List α :=
  let l2 := l ++ [v]
  if D < l2.length then l2.tail else l2

/-- A sequence of samples entering the capped window, in arrival order. -/
def windowAppendAll (D : Nat) (l : List α) (vs : List α) : List α :=
  vs.foldl (windowAppend D) l

/-! ## Ingest consumer
(src/ecg_receiver/gui_tkinter/main_window_modern.py, `process_ecg_data`;
src/ecg_receiver/gui_kivy/main_app.py, `_process_line_on_ui`)
-/

/-- The state of the tkinter GUI touched by `process_ecg_data`: the packet
counter, the plotted points (`ecg_plot.add_data_point`), the rolling window
`raw_ecg_values` capped at `diagnosis_buffer_size`, and the recorder rows
(`data_recorder.write_data`, timestamps elided). -/
structure EcgState where
  packets_received : Nat
  plot_data : List ℚ
  raw_ecg_values : List ℚ
  diagnosis_buffer_size : Nat
  recording : Bool
  recorded_rows : List ℚ
deriving Repr, DecidableEq

/-- Method `ModernECGMainWindow.process_ecg_data(data)` with the textual parsing
abstracted to its outcome: `r = some v` when the record parses to the scalar
`v` (the `DATA,x,v` format or the plain numeric format), and `r = none` when
the record is malformed — either recognized as non-numeric (`ecg_value`
stays `None`) or raising inside the `try`, whose `except` handler only
prints to the console.  In both malformed cases the method touches none of
the state.  Button/label updates are elided. -/
def process_ecg_data (s : EcgState) (r : Option ℚ) : EcgState :=
  match r with
  | none => s
  | some v =>
      { s with
        packets_received := s.packets_received + 1
        plot_data := s.plot_data ++ [v]
        raw_ecg_values :=
          windowAppend s.diagnosis_buffer_size s.raw_ecg_values v
        recorded_rows :=
          if s.recording then s.recorded_rows ++ [v] else s.recorded_rows }

/-- The state of the Kivy GUI touched by `_process_line_on_ui`: the packet
counter, the plot buffer `ecg_buffer` (a `deque(maxlen=max_points)`), and the
recorder rows. -/
structure KivyState where
  packets_received : Nat
  ecg_buffer : List ℚ
  max_points : Nat
  recording : Bool
  recorded_rows : List ℚ
deriving Repr, DecidableEq

/-- Method `ECGReceiverUI._process_line_on_ui(data)` with the textual parsing
abstracted to its outcome, as in `process_ecg_data`: a malformed line is
swallowed by `except Exception: return` (or by the `ecg_value is None`
early return) and touches none of the state; status-label text is elided. -/
def process_line_on_ui (s : KivyState) (r : Option ℚ) : KivyState :=
  match r with
  | none => s
  | some v =>
      { s with
        packets_received := s.packets_received + 1
        ecg_buffer := windowAppend s.max_points s.ecg_buffer v
        recorded_rows :=
          if s.recording then s.recorded_rows ++ [v] else s.recorded_rows }

/-! ## Diagnosis scheduling
(src/ecg_receiver/gui_tkinter/main_window_modern.py: `DiagnosisWorker`,
`start_diagnosis`, `check_auto_diagnosis`, `on_diagnosis_completed`,
`on_diagnosis_error`)
-/

/-- The scheduling state of `ModernECGMainWindow`.  The in-flight guard is
the code's `self.diagnosis_worker and self.diagnosis_worker.thread.is_alive()`
test; `now` models `time.time()` as a natural-number clock (seconds). -/
structure SchedState where
  diagnosis_client : Bool
  raw_ecg_values : List ℚ
  in_flight : Bool
  auto_diagnosis_enabled : Bool
  auto_diagnosis_interval : Nat
  last_auto_diagnosis : Nat
  now : Nat
deriving Repr, DecidableEq

/-- Method `ModernECGMainWindow.start_diagnosis` (the manual trigger), reduced to its
effect on the scheduling state:

```python
if not self.diagnosis_client: show_warning; return
if len(self.raw_ecg_values) < 100: show_warning; return
if worker is alive: show_info; return     # rejected, not queued
... self.diagnosis_worker = DiagnosisWorker(...); self.diagnosis_worker.start()
```

Dispatching the worker sets the in-flight guard; the snapshot handed to the
worker and the progress UI are elided. -/
def start_diagnosis (s : SchedState) : SchedState :=
  if s.diagnosis_client = false then s
  else if s.raw_ecg_values.length < 100 then s
  else if s.in_flight = true then s
  else { s with in_flight := true }

/-- One run of `ModernECGMainWindow.check_auto_diagnosis` (scheduled every
second with `root.after`):

```python
if (self.auto_diagnosis_enabled and
    self.diagnosis_client and
    len(self.raw_ecg_values) >= 1000 and
    current_time - self.last_auto_diagnosis >= self.auto_diagnosis_interval and
    not (worker is alive)):
    self.last_auto_diagnosis = current_time
    self.start_diagnosis()
```
-/
def check_auto_diagnosis (s : SchedState) : SchedState :=
  if s.auto_diagnosis_enabled = true ∧ s.diagnosis_client = true ∧
      1000 ≤ s.raw_ecg_values.length ∧
      s.auto_diagnosis_interval ≤ s.now - s.last_auto_diagnosis ∧
      s.in_flight = false then
    start_diagnosis { s with last_auto_diagnosis := s.now }
  else s

/-- Passage of `dt` seconds of wall-clock time.  No code in the repository
runs on a timer against the in-flight diagnosis request: time passing changes
only the clock. -/
def elapse (s : SchedState) (dt : Nat) : SchedState := { s with now := s.now + dt }

/-- Completion of the dispatched worker: `DiagnosisWorker.run_diagnosis`
returns (after invoking `callback` on success or `error_callback` on
failure), the daemon thread dies, and `thread.is_alive()` — the in-flight
guard — becomes false.  The success/failure difference is UI-only
(`on_diagnosis_completed` vs `on_diagnosis_error`) and is elided. -/
def complete_diagnosis (s : SchedState) : SchedState := { s with in_flight := false }

/-- The events that can act on the scheduling state: wall-clock time passing,
a manual trigger (`start_diagnosis` from the Analyze button), one run of the
periodic `check_auto_diagnosis`, and completion of the dispatched worker. -/
inductive SchedEvent where
  | timePasses (dt : Nat)
  | manualTrigger
  | autoCheck
  | workerDone
deriving Repr, DecidableEq

/-- Interpretation of one event on the scheduling state. -/
def schedStep (s : SchedState) : SchedEvent → SchedState
  | .timePasses dt => elapse s dt
  | .manualTrigger => start_diagnosis s
  | .autoCheck => check_auto_diagnosis s
  | .workerDone => complete_diagnosis s

/-- A sequence of events acting on the scheduling state, oldest first
(the Tk main loop serializes all of these on the owning thread). -/
def schedRun (s : SchedState) (es : List SchedEvent) : SchedState :=
  es.foldl schedStep s

/-- A concrete 100-sample window with spikes of height 100 at indices 20 and
80 and zeros elsewhere, used to exercise the heart-rate estimator: its mean
is 2, its variance is 196 (std 14), so the detection threshold is 9. -/
def dataW : List ℚ :=
  List.replicate 20 0 ++ 100 :: (List.replicate 59 0 ++ 100 :: List.replicate 19 0)

/-! ## Heart-rate estimator
(src/ecg_receiver/gui_tkinter/main_window_modern.py, `update_statistics`)

The numpy float arithmetic is modelled exactly over `ℚ`; the only
non-rational quantity, `np.std(data)`, enters solely through the comparison
`data[i] > mean + 0.5 * std`, which is encoded square-root-free as
`mean < data[i] and variance < 4 * (data[i] - mean)^2` (see
`aboveThreshold_spec` below for the proof that the two agree over `ℝ`).
-/

/-- Numpy `np.mean(data)` over exact rationals. -/
def qMean (data : List ℚ) : ℚ := data.sum / data.length

/-- Numpy `np.std(data) ** 2`, the population variance, over exact rationals. -/
def qVariance (data : List ℚ) : ℚ :=
  ((data.map (fun x => (x - qMean data) ^ 2)).sum) / data.length

/-- The comparison `x > np.mean(data) + 0.5 * np.std(data)` of
`update_statistics`, in its square-root-free form. -/
def aboveThreshold (data : List ℚ) (x : ℚ) : Bool :=
  decide (qMean data < x ∧ qVariance data < 4 * (x - qMean data) ^ 2)

/-- The peak-detection loop of `update_statistics`:

```python
peaks = []
threshold = np.mean(data) + 0.5 * np.std(data)
for i in range(1, len(data) - 1):
    if data[i] > data[i-1] and data[i] > data[i+1] and data[i] > threshold:
        if not peaks or i - peaks[-1] >= 50:
            peaks.append(i)
```
-/
def findPeaks (data : List ℚ) : List Nat :=
  (List.range' 1 (data.length - 2)).foldl
    (fun peaks i =>
      if data.getD i 0 > data.getD (i - 1) 0 ∧ data.getD i 0 > data.getD (i + 1) 0 ∧
          aboveThreshold data (data.getD i 0) = true then
        match peaks.getLast? with
        | none => peaks ++ [i]
        | some p => if 50 ≤ i - p then peaks ++ [i] else peaks
      else peaks)
    []

/-- The heart-rate computation of `update_statistics` on a window `data`
(the code applies it to the last 1250 stored samples):

```python
if len(peaks) > 1:
    intervals = np.diff(peaks) / 250.0
    avg_interval = np.mean(intervals)
    heart_rate = 60.0 / avg_interval if avg_interval > 0 else 0
    # displayed
else:
    # "-- BPM" displayed
```

`none` models the `-- BPM` (fewer than two peaks) outcome. -/
def heartRate (data : List ℚ) : Option ℚ :=
  let peaks := findPeaks data
  if 1 < peaks.length then
    let intervals := (peaks.zip peaks.tail).map
      (fun pq => ((pq.2 : ℚ) - (pq.1 : ℚ)) / 250)
    let avg := intervals.sum / intervals.length
    some (if 0 < avg then 60 / avg else 0)
  else none

/-- Writing at the head and advancing it modulo the capacity drops the oldest
element of the ring view and appends the new one. -/
theorem ringView_set (l : List α) (h : Nat) (v : α) (hl : h < l.length) :
    ringView (l.set h v) ((h + 1) % l.length) =
      (ringView l h).drop 1 ++ [v] := by
  have hset : l.set h v = l.take h ++ v :: l.drop (h + 1) := by
    rw [List.set_eq_take_append_cons_drop]
    simp [hl]
  have hrhs : (ringView l h).drop 1 = l.drop (h + 1) ++ l.take h := by
    unfold ringView
    rw [List.drop_append_of_le_length (by simp; omega), List.drop_drop,
      Nat.add_comm]
  have hlen : (l.take h).length = h := by simp; omega
  rcases Nat.lt_or_ge (h + 1) l.length with hc | hc
  · rw [Nat.mod_eq_of_lt hc, hrhs]
    unfold ringView
    rw [hset, List.drop_append_eq_append_drop, List.take_append_eq_append_take,
      hlen]
    have h1 : h + 1 - h = 1 := by omega
    rw [h1]
    simp [List.take_take, Nat.min_eq_right (by omega : h ≤ h + 1),
      List.drop_eq_nil_of_le, hl.le]
  · have hC : h + 1 = l.length := by omega
    have hmod : (h + 1) % l.length = 0 := by rw [hC]; simp
    rw [hmod, hrhs]
    unfold ringView
    simp only [List.drop_zero, List.take_zero, List.append_nil]
    rw [hset, List.drop_eq_nil_of_le (by omega : l.length ≤ h + 1)]
    simp

theorem ringRep_init (z : α) (C : Nat) (hC : 0 < C) :
    RingRep z C [] (CircularECGBuffer.init z C) := by
  unfold RingRep CircularECGBuffer.init
  simp [hC, Nat.not_le.mpr hC]

theorem ringRep_appendOne (z : α) (C : Nat) (L : List α)
    (b : CircularECGBuffer α) (v : α) (hC : 0 < C) (hr : RingRep z C L b) :
    RingRep z C (L ++ [v]) (b.appendOne v) := by
  obtain ⟨hmax, hbuf, hcount, hfull, hhead, hdata⟩ := hr
  have hmod : ((L.length % C) + 1) % C = (L.length + 1) % C :=
    Nat.ModEq.add_right 1 (Nat.mod_modEq L.length C)
  have hheadlt : b.head < b.buffer.length := by
    rw [hbuf, hhead]; exact Nat.mod_lt _ hC
  unfold CircularECGBuffer.appendOne
  rcases hF : b.full with _ | _
  · -- not yet full: L.length < C
    have hn : L.length < C := by
      by_contra hge
      have : b.full = true := hfull.trans (by simp [Nat.not_lt.mp hge] : _ = true)
      simp [hF] at this
    simp only [Bool.false_eq_true, if_false]
    refine ⟨hmax, by simpa using hbuf, ?_, ?_, ?_, ?_⟩
    · simp [hcount]
      omega
    · simp only [List.length_append, List.length_singleton]
      rw [hcount]
      have : min L.length C = L.length := by omega
      rw [this, hmax]
      rcases Nat.lt_or_ge (L.length + 1) C with hlt | hge
      · simp [Nat.ne_of_lt hlt, Nat.not_le.mpr hlt]
      · have : L.length + 1 = C := by omega
        simp [this]
    · rw [hmax, hhead, List.length_append, List.length_singleton, hmod]
    · -- storage contents
      have hset : b.buffer.set b.head v =
          L ++ v :: List.replicate (C - L.length - 1) z := by
        rw [if_pos hn] at hdata
        rw [hdata, hhead, Nat.mod_eq_of_lt hn]
        rw [List.set_eq_take_append_cons_drop]
        have hlen : L.length < (L ++ List.replicate (C - L.length) z).length := by
          simp; omega
        rw [if_pos hlen]
        rw [List.take_append_eq_append_take, List.take_length,
          Nat.sub_self, List.take_zero, List.append_nil]
        rw [List.drop_append_eq_append_drop,
          List.drop_eq_nil_of_le (by omega : L.length ≤ L.length + 1)]
        have h1 : L.length + 1 - L.length = 1 := by omega
        rw [h1, List.drop_replicate, List.nil_append]
      rcases Nat.lt_or_ge (L.length + 1) C with hlt | hge
      · rw [if_pos (by simpa using hlt)]
        simp only [hset]
        have : C - (L ++ [v]).length = C - L.length - 1 := by simp; omega
        rw [this]
        simp
      · have hEq : L.length + 1 = C := by omega
        have h0 : (L.length + 1) % C = 0 := by rw [hEq]; simp
        have hh : (b.head + 1) % b.max_size = 0 := by
          rw [hmax, hhead, hmod, h0]
        rw [if_neg (by simp; omega)]
        simp only [List.length_append, List.length_singleton]
        rw [hh]
        unfold ringView
        simp only [List.drop_zero, List.take_zero, List.append_nil]
        rw [hset]
        have h2 : C - L.length - 1 = 0 := by omega
        have h3 : L.length + 1 - C = 0 := by omega
        rw [h2, h3, List.drop_zero]
        simp
  · -- already full: C ≤ L.length, count stays C, ring view rotates
    have hle : C ≤ L.length := by
      by_contra hlt
      have : b.full = false := hfull.trans (by simp [Nat.not_le.mp hlt] : _ = false)
      simp [hF] at this
    simp only [if_true]
    refine ⟨hmax, by simpa using hbuf, ?_, ?_, ?_, ?_⟩
    · rw [hcount]; simp; omega
    · have : C ≤ (L ++ [v]).length := by simp; omega
      simp [this]
      omega
    · rw [hmax, hhead, List.length_append, List.length_singleton, hmod]
    · rw [if_neg (by simp; omega)]
      rw [if_neg (by omega)] at hdata
      have hv := ringView_set b.buffer b.head v hheadlt
      rw [hbuf, hdata] at hv
      rw [hmax, hv]
      simp only [List.length_append, List.length_singleton]
      rw [List.drop_drop, List.drop_append_eq_append_drop]
      have e2 : L.length + 1 - C - L.length = 0 := by omega
      rw [e2, List.drop_zero]
      congr 2
      omega

theorem ringRep_append (z : α) (C : Nat) (M L : List α)
    (b : CircularECGBuffer α) (hC : 0 < C) (hr : RingRep z C M b) :
    RingRep z C (M ++ L) (b.append L) := by
  induction L generalizing M b with
  | nil => simpa [CircularECGBuffer.append] using hr
  | cons v L ih =>
      have h1 := ringRep_appendOne z C M b v hC hr
      have h2 := ih (M ++ [v]) (b.appendOne v) h1
      simpa [CircularECGBuffer.append, List.append_assoc] using h2

theorem ringRep_of_append (z : α) (C : Nat) (L : List α) (hC : 0 < C) :
    RingRep z C L ((CircularECGBuffer.init z C).append L) := by
  simpa using ringRep_append z C [] L _ hC (ringRep_init z C hC)

theorem inv_init (z : α) (c : Nat) (hc : 0 < c) :
    (CircularECGBuffer.init z c).Inv := by
  unfold CircularECGBuffer.Inv CircularECGBuffer.init
  simp
  omega

theorem inv_appendOne (b : CircularECGBuffer α) (v : α) (hb : b.Inv) :
    (b.appendOne v).Inv := by
  obtain ⟨h1, h2, h3, h4⟩ := hb
  have hpos : 0 < b.max_size := Nat.pos_of_ne_zero (by omega)
  unfold CircularECGBuffer.appendOne
  rcases hF : b.full with _ | _
  · have hne : b.count ≠ b.max_size := fun h => by simp [h4.mpr h] at hF
    simp only [Bool.false_eq_true, if_false]
    refine ⟨Nat.mod_lt _ hpos, by simp; omega, by simpa using h3, ?_⟩
    simp
  · have hEq : b.count = b.max_size := h4.mp hF
    simp only [if_true]
    exact ⟨Nat.mod_lt _ hpos, by simpa using h2, by simpa using h3,
      by simpa [hF] using h4⟩

theorem inv_append (b : CircularECGBuffer α) (l : List α) (hb : b.Inv) :
    (b.append l).Inv := by
  induction l generalizing b with
  | nil => simpa [CircularECGBuffer.append] using hb
  | cons v l ih =>
      have h1 := inv_appendOne b v hb
      simpa [CircularECGBuffer.append] using ih (b.appendOne v) h1

theorem inv_clear (z : α) (b : CircularECGBuffer α) (hb : b.Inv) :
    (b.clear z).Inv := by
  obtain ⟨h1, h2, h3, h4⟩ := hb
  unfold CircularECGBuffer.Inv CircularECGBuffer.clear
  simp [h3]
  omega

/-- C10: for every buffer constructed with capacity `max_size > 0`, the
invariant `head < max_size ∧ count ≤ max_size ∧ (full ↔ count = max_size)`
(together with the storage keeping its allocated length) holds after
construction and is preserved by every `append` (with any list of values) and
by `clear`. -/
theorem circularBuffer_inv (z : α) (c : Nat) (hc : 0 < c)
    (b : CircularECGBuffer α) (hb : b.Inv) (l : List α) :
    (CircularECGBuffer.init z c).Inv ∧ (b.append l).Inv ∧ (b.clear z).Inv :=
  ⟨inv_init z c hc, inv_append b l hb, inv_clear z b hb⟩

/-- Witness for C10 at capacity 3, the freshly constructed buffer, and the
appended list `[5, 6, 7, 8]`. -/
theorem circularBuffer_inv_witness :
    (0 < 3 ∧ (CircularECGBuffer.init (0 : Int) 3).Inv) ∧
      ((CircularECGBuffer.init (0 : Int) 3).append [5, 6, 7, 8]).Inv ∧
      ((CircularECGBuffer.init (0 : Int) 3).clear 0).Inv := by
  have h := circularBuffer_inv (0 : Int) 3 (by decide)
    (CircularECGBuffer.init (0 : Int) 3) (by decide) [5, 6, 7, 8]
  exact ⟨⟨by decide, h.1⟩, h.2.1, h.2.2⟩

/-- C5: for every capacity `C > 0` and every sequence of more than `C`
appended values, reading the `C` most recent samples returns exactly the last
`C` appended values in arrival order, across the wrap boundary. -/
theorem get_recent_data_last (z : α) (C : Nat) (L : List α) (hC : 0 < C)
    (hL : C < L.length) :
    ((CircularECGBuffer.init z C).append L).get_recent_data C =
      L.drop (L.length - C) := by
  obtain ⟨hmax, hbuf, hcount, hfull, hhead, hdata⟩ := ringRep_of_append z C L hC
  rw [if_neg (by omega)] at hdata
  have hful : ((CircularECGBuffer.init z C).append L).full = true := by
    rw [hfull]; simp; omega
  have hcnt : ((CircularECGBuffer.init z C).append L).count = C := by
    rw [hcount]; omega
  have hlt : ((CircularECGBuffer.init z C).append L).head < C := by
    rw [hhead]; exact Nat.mod_lt _ hC
  unfold CircularECGBuffer.get_recent_data
  simp only [hful, hcnt, min_self, Bool.not_true, Bool.false_eq_true, if_false]
  rw [if_neg (by omega)]
  rw [hbuf]
  have he : C - (C - ((CircularECGBuffer.init z C).append L).head) =
      ((CircularECGBuffer.init z C).append L).head := by omega
  rw [he]
  exact hdata

/-- Witness for C5: the spec's own example, capacity 5 with appended values
`[1,2,3,4,5,6,7]`. -/
theorem get_recent_data_last_witness :
    0 < 5 ∧ 5 < ([1, 2, 3, 4, 5, 6, 7] : List Int).length ∧
      ((CircularECGBuffer.init (0 : Int) 5).append
        [1, 2, 3, 4, 5, 6, 7]).get_recent_data 5 = [3, 4, 5, 6, 7] := by
  refine ⟨by decide, by decide, ?_⟩
  exact (get_recent_data_last (0 : Int) 5 [1, 2, 3, 4, 5, 6, 7] (by decide)
    (by decide)).trans (by decide)

/-- C2 fails on the code: on a partially filled buffer (capacity 5, appended
values `[1,2,3]`, head 3, not full), `get_recent_data(0)` evaluates
`self.buffer[:self.head][-0:]`, and the Python slice `[-0:]` is `[0:]`, the
whole prefix.  The call therefore returns `[1,2,3]`, not an empty sequence. -/
theorem get_recent_data_zero_not_empty :
    ((CircularECGBuffer.init (0 : Int) 5).append [1, 2, 3]).get_recent_data 0
        = [1, 2, 3] ∧
      ((CircularECGBuffer.init (0 : Int) 5).append [1, 2, 3]).get_recent_data 0
        ≠ ([] : List Int) := by
  refine ⟨by decide, ?_⟩
  decide

/-- C3 fails on the code: `CircularECGBuffer.__init__` performs no capacity
validation, so a capacity of `0` is silently accepted at construction time. -/
theorem mk_zero_capacity_accepted :
    (CircularECGBuffer.mk? (0 : Int) 0).isSome = true := by decide

/-- C3 amended: construction only fails for a negative capacity (because the
underlying `np.zeros` allocation raises `ValueError` on a negative size, not a
dedicated `InvalidCapacity` error); a capacity of `0` is silently accepted. -/
theorem mk_succeeds_iff_nonneg (z : α) (c : Int) :
    (CircularECGBuffer.mk? z c).isSome = true ↔ 0 ≤ c := by
  unfold CircularECGBuffer.mk?
  by_cases h : c < 0 <;> simp [h]
  all_goals omega

theorem windowAppend_length (D : Nat) (l : List α) (v : α) (hl : l.length ≤ D) :
    (windowAppend D l v).length = min (l.length + 1) D := by
  unfold windowAppend
  rcases Nat.lt_or_ge l.length D with h | h
  · rw [if_neg (by simp; omega)]
    simp
    omega
  · have hD : l.length = D := by omega
    rw [if_pos (by simp; omega)]
    simp
    omega

theorem windowAppend_eq_drop (D : Nat) (l : List α) (v : α) (hl : l.length ≤ D) :
    windowAppend D l v = (l ++ [v]).drop (l.length + 1 - D) := by
  unfold windowAppend
  rcases Nat.lt_or_ge l.length D with h | h
  · rw [if_neg (by simp; omega)]
    have : l.length + 1 - D = 0 := by omega
    rw [this, List.drop_zero]
  · have hD : l.length = D := by omega
    rw [if_pos (by simp; omega)]
    have : l.length + 1 - D = 1 := by omega
    rw [this, ← List.drop_one]

theorem windowAppendAll_eq_drop (D : Nat) (vs l : List α) (hl : l.length ≤ D) :
    windowAppendAll D l vs = (l ++ vs).drop (l.length + vs.length - D) := by
  induction vs generalizing l with
  | nil =>
      unfold windowAppendAll
      simp only [List.foldl_nil, List.append_nil, List.length_nil, Nat.add_zero]
      have : l.length - D = 0 := by omega
      rw [this, List.drop_zero]
  | cons v vs ih =>
      have h1 : (windowAppend D l v).length ≤ D := by
        rw [windowAppend_length D l v hl]; omega
      have h2 := ih (windowAppend D l v) h1
      have h3 : windowAppendAll D l (v :: vs) =
          windowAppendAll D (windowAppend D l v) vs := by
        simp [windowAppendAll]
      rw [h3, h2, windowAppend_length D l v hl,
        windowAppend_eq_drop D l v hl]
      rcases Nat.lt_or_ge l.length D with h | h
      · have e0 : l.length + 1 - D = 0 := by omega
        have e1 : min (l.length + 1) D = l.length + 1 := by omega
        rw [e0, List.drop_zero, e1, List.append_assoc, List.singleton_append]
        congr 1
        simp only [List.length_cons]
        omega
      · have hD : l.length = D := by omega
        have e0 : l.length + 1 - D = 1 := by omega
        have e1 : min (l.length + 1) D = D := by omega
        have e2 : D + vs.length - D = vs.length := by omega
        rw [e0, e1, e2,
          ← List.drop_append_of_le_length (by simp : 1 ≤ (l ++ [v]).length),
          List.drop_drop, List.append_assoc, List.singleton_append]
        congr 1
        simp
        omega

/-- C8: a diagnosis window of capacity `D > 0`, fed the `D + 5` samples
`0, 1, …, D + 4` from empty, holds exactly the samples `5, …, D + 4` in
arrival order: its length is `D` and its oldest retained sample is `5`. -/
theorem diagnosis_window_evicts (D : Nat) (hD : 0 < D) :
    windowAppendAll D ([] : List Nat) (List.range (D + 5)) =
        (List.range (D + 5)).drop 5 ∧
      (windowAppendAll D ([] : List Nat) (List.range (D + 5))).length = D ∧
      (windowAppendAll D ([] : List Nat) (List.range (D + 5))).head? = some 5 := by
  have h := windowAppendAll_eq_drop D (List.range (D + 5)) [] (by simp)
  simp only [List.nil_append, List.length_nil, List.length_range] at h
  have e5 : 0 + (D + 5) - D = 5 := by omega
  rw [e5] at h
  refine ⟨h, ?_, ?_⟩
  · rw [h]
    simp
  · rw [h, List.head?_eq_getElem?, List.getElem?_drop]
    rw [List.getElem?_range (by omega : 5 + 0 < D + 5)]

/-- Witness for C8 at capacity `D = 7`. -/
theorem diagnosis_window_evicts_witness :
    windowAppendAll 7 ([] : List Nat) (List.range (7 + 5)) =
        (List.range (7 + 5)).drop 5 ∧
      (windowAppendAll 7 ([] : List Nat) (List.range (7 + 5))).length = 7 ∧
      (windowAppendAll 7 ([] : List Nat) (List.range (7 + 5))).head? = some 5 :=
  diagnosis_window_evicts 7 (by decide)

/-- C4 fails on the code: a malformed ingest record is indeed dropped without
raising an error, but neither GUI maintains a drop counter — the consumer
state (which carries every counter the code keeps, `packets_received`) is
left entirely unchanged.  Concretely, feeding one malformed record to a
consumer that has accepted three packets leaves it with the same three
packets and no incremented counter of any kind. -/
theorem malformed_record_leaves_state_unchanged :
    process_ecg_data ⟨3, [1], [1], 5000, false, []⟩ none =
        ⟨3, [1], [1], 5000, false, []⟩ ∧
      process_line_on_ui ⟨3, [1], 2500, false, []⟩ none =
        ⟨3, [1], 2500, false, []⟩ :=
  ⟨rfl, rfl⟩

/-- C4 amended: in both GUIs a malformed ingest record is dropped silently —
the consumer state is left entirely unchanged, so no error reaches the user
but also no drop counter is incremented (none exists) — while a valid record
increments the packet counter and is applied to the buffers (and recorded
when recording is active). -/
theorem process_record_drop_policy (s : EcgState) (k : KivyState) (v : ℚ) :
    process_ecg_data s none = s ∧
      process_line_on_ui k none = k ∧
      (process_ecg_data s (some v)).packets_received = s.packets_received + 1 ∧
      (process_ecg_data s (some v)).raw_ecg_values =
        windowAppend s.diagnosis_buffer_size s.raw_ecg_values v ∧
      (process_ecg_data s (some v)).plot_data = s.plot_data ++ [v] ∧
      (process_line_on_ui k (some v)).packets_received = k.packets_received + 1 ∧
      (process_line_on_ui k (some v)).ecg_buffer =
        windowAppend k.max_points k.ecg_buffer v := by
  refine ⟨rfl, rfl, rfl, rfl, rfl, rfl, rfl⟩

/-- C1 fails on the code: nothing in the diagnosis path implements a timeout.
From an eligible idle state (client configured, 100 buffered samples, guard
clear), dispatching a request sets the in-flight guard, and after a million
seconds with no completion the scheduler still has the guard set — no
transition back to idle with a timeout error ever occurs by time alone. -/
theorem dispatched_request_never_times_out :
    (schedRun ⟨true, List.replicate 100 0, false, false, 30, 0, 0⟩
        [.manualTrigger, .timePasses 1000000]).in_flight = true := by
  rfl

/-- C1 amended: the code has no request timeout.  Along any event sequence
that contains no worker completion, a set in-flight guard stays set — in
particular a request that never completes leaves the guard set forever —
and the guard is cleared exactly by worker completion. -/
theorem guard_cleared_only_by_completion (s : SchedState)
    (es : List SchedEvent) (hs : s.in_flight = true)
    (he : SchedEvent.workerDone ∉ es) :
    (schedRun s es).in_flight = true ∧
      (schedStep s SchedEvent.workerDone).in_flight = false := by
  refine ⟨?_, rfl⟩
  induction es generalizing s with
  | nil => simpa [schedRun] using hs
  | cons e es ih =>
      have he1 : SchedEvent.workerDone ∉ es := fun h => he (List.mem_cons_of_mem _ h)
      have he0 : e ≠ SchedEvent.workerDone := fun h => he (h ▸ List.mem_cons_self _ _)
      have hstep : (schedStep s e).in_flight = true := by
        cases e with
        | timePasses dt => exact hs
        | manualTrigger =>
            show (start_diagnosis s).in_flight = true
            unfold start_diagnosis
            split
            · exact hs
            · split
              · exact hs
              · exact hs
        | autoCheck =>
            show (check_auto_diagnosis s).in_flight = true
            unfold check_auto_diagnosis
            rw [if_neg (by simp [hs])]
            exact hs
        | workerDone => exact absurd rfl he0
      have : schedRun s (e :: es) = schedRun (schedStep s e) es := by
        simp [schedRun]
      rw [this]
      exact ih (schedStep s e) hstep he1

/-- Witness for the amended C1: a dispatched request with the guard set,
followed by time passing, a manual trigger, an auto tick and more time, with
no completion — the guard is still set at the end, and a completion event
clears it. -/
theorem guard_cleared_only_by_completion_witness :
    (SchedState.mk true [] true false 30 0 0).in_flight = true ∧
      SchedEvent.workerDone ∉
        [SchedEvent.timePasses 31, SchedEvent.manualTrigger,
          SchedEvent.autoCheck, SchedEvent.timePasses 1000000] ∧
      (schedRun ⟨true, [], true, false, 30, 0, 0⟩
          [.timePasses 31, .manualTrigger, .autoCheck,
            .timePasses 1000000]).in_flight = true ∧
      (schedStep ⟨true, [], true, false, 30, 0, 0⟩
          SchedEvent.workerDone).in_flight = false := by
  have h := guard_cleared_only_by_completion ⟨true, [], true, false, 30, 0, 0⟩
    [.timePasses 31, .manualTrigger, .autoCheck, .timePasses 1000000]
    rfl (by decide)
  exact ⟨rfl, by decide, h.1, h.2⟩

/-- C6: the scheduler never holds two requests in flight.  From an eligible
idle state a trigger sets the in-flight guard; a second trigger (manual or
auto) while the guard is set is a complete no-op — the state is unchanged,
nothing is queued — so exactly one transition into the requesting state
occurs; and from any state with the guard set, both trigger paths are
no-ops. -/
theorem requesting_is_exclusive (s : SchedState)
    (hc : s.diagnosis_client = true) (hn : 100 ≤ s.raw_ecg_values.length)
    (hg : s.in_flight = false) :
    (start_diagnosis s).in_flight = true ∧
      start_diagnosis (start_diagnosis s) = start_diagnosis s ∧
      check_auto_diagnosis (start_diagnosis s) = start_diagnosis s ∧
      (∀ t : SchedState, t.in_flight = true →
        start_diagnosis t = t ∧ check_auto_diagnosis t = t) := by
  have hrej : ∀ t : SchedState, t.in_flight = true →
      start_diagnosis t = t ∧ check_auto_diagnosis t = t := by
    intro t ht
    constructor
    · unfold start_diagnosis
      split
      · rfl
      · split
        · rfl
        · simp [ht]
    · unfold check_auto_diagnosis
      rw [if_neg (by simp [ht])]
  have hdisp : start_diagnosis s = { s with in_flight := true } := by
    unfold start_diagnosis
    rw [if_neg (by simp [hc]), if_neg (by omega), if_neg (by simp [hg])]
  have hset : (start_diagnosis s).in_flight = true := by rw [hdisp]
  exact ⟨hset, (hrej _ hset).1, (hrej _ hset).2, hrej⟩

/-- Witness for C6 at a concrete eligible state. -/
theorem requesting_is_exclusive_witness :
    ((SchedState.mk true (List.replicate 100 0) false false 30 0 0).diagnosis_client
        = true ∧
      100 ≤ (SchedState.mk true (List.replicate 100 0) false false 30 0 0
        ).raw_ecg_values.length ∧
      (SchedState.mk true (List.replicate 100 0) false false 30 0 0).in_flight
        = false) ∧
      (start_diagnosis ⟨true, List.replicate 100 0, false, false, 30, 0, 0⟩
        ).in_flight = true ∧
      start_diagnosis (start_diagnosis
          ⟨true, List.replicate 100 0, false, false, 30, 0, 0⟩) =
        start_diagnosis ⟨true, List.replicate 100 0, false, false, 30, 0, 0⟩ ∧
      check_auto_diagnosis (start_diagnosis
          ⟨true, List.replicate 100 0, false, false, 30, 0, 0⟩) =
        start_diagnosis ⟨true, List.replicate 100 0, false, false, 30, 0, 0⟩ := by
  have h := requesting_is_exclusive
    ⟨true, List.replicate 100 0, false, false, 30, 0, 0⟩
    rfl (by simp) rfl
  exact ⟨⟨rfl, by simp, rfl⟩, h.1, h.2.1, h.2.2.1⟩

/-- C7 fails on the code: `check_auto_diagnosis` additionally requires the
diagnosis client to be configured.  In a reachable state where every
condition listed by the claim holds — auto mode on, 1000 buffered samples,
100 s since the last auto attempt (interval 30 s), guard clear — but the
client is not configured, the tick does not trigger: the state is unchanged
and the guard stays clear. -/
theorem auto_trigger_needs_client :
    check_auto_diagnosis ⟨false, List.replicate 1000 0, false, true, 30, 0, 100⟩ =
        ⟨false, List.replicate 1000 0, false, true, 30, 0, 100⟩ ∧
      (check_auto_diagnosis
          ⟨false, List.replicate 1000 0, false, true, 30, 0, 100⟩).in_flight
        = false := by
  have h : check_auto_diagnosis
      ⟨false, List.replicate 1000 0, false, true, 30, 0, 100⟩ =
      ⟨false, List.replicate 1000 0, false, true, 30, 0, 100⟩ := by
    unfold check_auto_diagnosis
    rw [if_neg (by simp)]
  exact ⟨h, by rw [h]⟩

/-- C7 amended: an automatic diagnosis never triggers unless auto mode is
enabled, the diagnosis client is configured, the window holds at least 1000
samples, at least the configured interval has elapsed since the last auto
attempt, and the in-flight guard is clear; when all five conditions hold,
the next `check_auto_diagnosis` tick dispatches a request and stamps the
attempt time. -/
theorem auto_trigger_gating (s : SchedState) :
    (s.auto_diagnosis_enabled = false → check_auto_diagnosis s = s) ∧
      (s.diagnosis_client = false → check_auto_diagnosis s = s) ∧
      (s.raw_ecg_values.length < 1000 → check_auto_diagnosis s = s) ∧
      (s.now - s.last_auto_diagnosis < s.auto_diagnosis_interval →
        check_auto_diagnosis s = s) ∧
      (s.in_flight = true → check_auto_diagnosis s = s) ∧
      (s.auto_diagnosis_enabled = true → s.diagnosis_client = true →
        1000 ≤ s.raw_ecg_values.length →
        s.auto_diagnosis_interval ≤ s.now - s.last_auto_diagnosis →
        s.in_flight = false →
        (check_auto_diagnosis s).in_flight = true ∧
          (check_auto_diagnosis s).last_auto_diagnosis = s.now) := by
  refine ⟨?_, ?_, ?_, ?_, ?_, ?_⟩
  · intro h
    unfold check_auto_diagnosis
    rw [if_neg (by simp [h])]
  · intro h
    unfold check_auto_diagnosis
    rw [if_neg (by simp [h])]
  · intro h
    unfold check_auto_diagnosis
    rw [if_neg (by omega)]
  · intro h
    unfold check_auto_diagnosis
    rw [if_neg (by omega)]
  · intro h
    unfold check_auto_diagnosis
    rw [if_neg (by simp [h])]
  · intro h1 h2 h3 h4 h5
    unfold check_auto_diagnosis
    rw [if_pos ⟨h1, h2, h3, h4, h5⟩]
    unfold start_diagnosis
    rw [if_neg (by simp [h2]), if_neg (by simp; omega), if_neg (by simp [h5])]
    exact ⟨rfl, rfl⟩

/-- Witness for the amended C7: with 999 samples the tick does not trigger;
with 1000 samples, the client configured, auto mode on, 100 s elapsed and
the guard clear, it triggers and stamps the attempt time. -/
theorem auto_trigger_gating_witness :
    check_auto_diagnosis ⟨true, List.replicate 999 0, false, true, 30, 0, 100⟩ =
        ⟨true, List.replicate 999 0, false, true, 30, 0, 100⟩ ∧
      (check_auto_diagnosis
          ⟨true, List.replicate 1000 0, false, true, 30, 0, 100⟩).in_flight
        = true ∧
      (check_auto_diagnosis
          ⟨true, List.replicate 1000 0, false, true, 30, 0, 100⟩
        ).last_auto_diagnosis = 100 := by
  refine ⟨?_, ?_⟩
  · exact (auto_trigger_gating
      ⟨true, List.replicate 999 0, false, true, 30, 0, 100⟩).2.2.1 (by simp)
  · exact (auto_trigger_gating
      ⟨true, List.replicate 1000 0, false, true, 30, 0, 100⟩).2.2.2.2.2
      rfl rfl (by simp) (by simp) rfl

/-- The square-root-free encoding used by `aboveThreshold` agrees over `ℝ`
with the source's comparison `x > mean + 0.5 * std` (where `std = √v`). -/
theorem aboveThreshold_spec (m v x : ℝ) :
    m + Real.sqrt v / 2 < x ↔ (m < x ∧ v < 4 * (x - m) ^ 2) := by
  constructor
  · intro h
    have hs : 0 ≤ Real.sqrt v := Real.sqrt_nonneg v
    have hm : m < x := by linarith
    refine ⟨hm, ?_⟩
    have h2 : Real.sqrt v < 2 * (x - m) := by linarith
    have h3 := (Real.sqrt_lt' (by linarith : 0 < 2 * (x - m))).mp h2
    nlinarith
  · rintro ⟨hm, hq⟩
    have h2 : Real.sqrt v < 2 * (x - m) := by
      refine (Real.sqrt_lt' (by linarith : 0 < 2 * (x - m))).mpr ?_
      nlinarith
    linarith

/-- C9: on any window in which the detector (a sample strictly above both
neighbours and above `mean + 0.5·std`, with peaks closer than 50 samples
suppressed) finds exactly the two peaks `p < q`, the estimator reports
`60 · 250 / (q - p)` bpm — `60·R/M` for the code's sample rate `R = 250` and
peak distance `M = q - p`, exactly in this rational model. -/
theorem heartRate_two_peaks (data : List ℚ) (p q : Nat)
    (hp : findPeaks data = [p, q]) (hpq : p < q) :
    heartRate data = some (15000 / ((q : ℚ) - (p : ℚ))) := by
  have hlt : (p : ℚ) < (q : ℚ) := by exact_mod_cast hpq
  have hpos : (0 : ℚ) < (q : ℚ) - (p : ℚ) := by linarith
  unfold heartRate
  rw [hp]
  simp only [List.length_cons, List.length_nil, List.tail_cons,
    List.zip_cons_cons, List.zip_nil_right, List.map_cons, List.map_nil,
    List.sum_cons, List.sum_nil, add_zero, Nat.cast_one]
  rw [if_pos (by norm_num)]
  rw [if_pos (by positivity)]
  congr 1
  field_simp
  norm_num

theorem dataW_mean : qMean dataW = 2 := by
  unfold qMean
  rw [show dataW.sum = 200 by simp [dataW, List.sum_replicate]; norm_num,
    show dataW.length = 100 by simp [dataW]]
  norm_num

theorem dataW_var : qVariance dataW = 196 := by
  unfold qVariance
  rw [dataW_mean, show dataW.length = 100 by simp [dataW]]
  simp [dataW, List.sum_replicate]
  norm_num

theorem dataW_thr0 : aboveThreshold dataW 0 = false := by
  unfold aboveThreshold
  rw [dataW_mean, dataW_var]
  norm_num

theorem dataW_thr100 : aboveThreshold dataW 100 = true := by
  unfold aboveThreshold
  rw [dataW_mean, dataW_var]
  norm_num

theorem dataW_getElem (i : Nat) :
    dataW[i]?.getD 0 =
      if i < 100 then (if i = 20 ∨ i = 80 then (100 : ℚ) else 0) else 0 := by
  have hmap : dataW = (List.range 100).map
      (fun j => if j = 20 ∨ j = 80 then (100 : ℚ) else 0) := by rfl
  conv_lhs => rw [hmap]
  rw [List.getElem?_map]
  rcases Nat.lt_or_ge i 100 with h | h
  · rw [List.getElem?_range h]
    simp [h]
  · rw [List.getElem?_eq_none (by simpa using h)]
    simp [Nat.not_lt.mpr h]

set_option maxHeartbeats 4000000 in
theorem dataW_peaks : findPeaks dataW = [20, 80] := by
  unfold findPeaks
  rw [show dataW.length - 2 = 98 by rw [show dataW.length = 100 by simp [dataW]]]
  norm_num [List.range', dataW_getElem, dataW_thr0, dataW_thr100]

/-- Witness for C9: on the concrete window `dataW` (spikes at indices 20 and
80, `M = 60`, `R = 250`) the detector finds exactly two peaks and the
estimator reports `60 · 250 / 60 = 250` bpm. -/
theorem heartRate_two_peaks_witness :
    findPeaks dataW = [20, 80] ∧ 20 < 80 ∧ heartRate dataW = some 250 := by
  refine ⟨dataW_peaks, by norm_num, ?_⟩
  rw [heartRate_two_peaks dataW 20 80 dataW_peaks (by norm_num)]
  norm_num

end EcgReceiver
